import Mathlib

/-!
Shallow embedding of the Go code emitted by the Go backend of the molecule schema compiler (src/tools/codegen/src/generator/languages/go/generator.rs).  The
generator renders, per schema type kind, a Go FromSlice validator, a New
constructor (encoder) and slice-range accessors; the definitions below
translate those emitted algorithms.  Byte buffers are lists of byte values,
Go uint32 arithmetic is modelled as Nat arithmetic with explicit reductions
modulo 2 ^ 32, and Go slice expressions that can panic are modelled with an
explicit out-of-range outcome.
-/

namespace Molecule

/-- Byte buffers: each element is one byte value. -/
abbrev Bytes := List Nat

/-- The 4-byte header unit (Go constant HeaderSizeUint). -/
def HeaderSizeUint : Nat := 4

/-- Go unpackNumber: read the first 4 bytes of a slice as a little-endian
unsigned 32-bit number.  All emitted call sites guard the slice length. -/
def unpackNumber (s : Bytes) : Nat :=
  s.getD 0 0 + 2 ^ 8 * s.getD 1 0 + 2 ^ 16 * s.getD 2 0 + 2 ^ 24 * s.getD 3 0

/-- Go packNumber: the 4 little-endian bytes of a number (reduced mod 2 ^ 32). -/
def packNumber (n : Nat) : Bytes :=
  [n % 2 ^ 8, n / 2 ^ 8 % 2 ^ 8, n / 2 ^ 16 % 2 ^ 8, n / 2 ^ 24 % 2 ^ 8]

/-- Go slice expression s[a:b]; none models the runtime bounds panic. -/
def goSlice (s : Bytes) (a b : Nat) : Option Bytes :=
  if a ≤ b ∧ b ≤ s.length then some ((s.drop a).take (b - a)) else none

/-- Go slice expression s[a:]; none models the runtime bounds panic. -/
def goSliceFrom (s : Bytes) (a : Nat) : Option Bytes :=
  if a ≤ s.length then some (s.drop a) else none

/-- Structural decode errors, one constructor per distinct error message shape
produced by the emitted FromSlice functions (HeaderIsBroken, TotalSizeNotMatch,
the two OffsetsNotMatch messages, FieldCountNotMatch, UnknownItem). -/
inductive Err
  | headerIsBroken
  | totalSizeNotMatch
  | offsetsNotMatchFirstOffset
  | offsetsNotMatchOrder
  | fieldCountNotMatch
  | unknownItem
  deriving DecidableEq

/-- Result of an emitted FromSlice validator: a validated view (which records
only the input slice itself), a structural error, or a Go runtime panic from
an out-of-range slice expression. -/
inductive VRes
  | ok
  | err (e : Err)
  | panics
  deriving DecidableEq

/-- Result of an emitted Get/getter accessor: Go nil, a sub-slice view, or a
Go runtime panic from an out-of-range slice expression. -/
inductive GetRes
  | nilRes
  | view (b : Bytes)
  | panics
  deriving DecidableEq

/-- Array FromSlice: the slice length must equal the statically known total
size of the array type. -/
def ArrayFromSlice (total_size : Nat) (slice : Bytes) (_compatible : Bool) : VRes :=
  if slice.length ≠ total_size then VRes.err Err.totalSizeNotMatch else VRes.ok

/-- Struct FromSlice: the slice length must equal the statically known total
size of the struct type. -/
def StructFromSlice (total_size : Nat) (slice : Bytes) (_compatible : Bool) : VRes :=
  if slice.length ≠ total_size then VRes.err Err.totalSizeNotMatch else VRes.ok

/-- FixVec FromSlice: header check, then the item count from the header fixes
the expected total size; item_size * itemCount is Go uint32 multiplication. -/
def FixVecFromSlice (item_size : Nat) (slice : Bytes) (_compatible : Bool) : VRes :=
  let sliceLen := slice.length
  if sliceLen < HeaderSizeUint then VRes.err Err.headerIsBroken
  else
    let itemCount := unpackNumber slice
    if itemCount = 0 then
      if sliceLen ≠ HeaderSizeUint then VRes.err Err.totalSizeNotMatch else VRes.ok
    else
      let totalSize := HeaderSizeUint + (item_size * itemCount) % 2 ^ 32
      if sliceLen ≠ totalSize then VRes.err Err.totalSizeNotMatch else VRes.ok

/-- The offset pairs examined by the emitted DynVec/Table loops: both the
monotonicity loop and the item-validation loop run i over all offset indices
but act only when i AND 1 is nonzero, pairing offsets[i-1] with offsets[i]. -/
def oddPairs (offsets : List Nat) : List (Nat × Nat) :=
  (List.range offsets.length).filterMap fun i =>
    if i % 2 = 1 then some (offsets.getD (i - 1) 0, offsets.getD i 0) else none

/-- DynVec item-validation loop: decode the sub-slice of each examined pair with
the FromSlice of the inner type, returning the first nested error unchanged. -/
def verifyList (inner : Bytes → Bool → VRes) (slice : Bytes) (compatible : Bool) :
    List (Nat × Nat) → VRes
  | [] => VRes.ok
  | (a, b) :: rest =>
    match goSlice slice a b with
    | none => VRes.panics
    | some sub =>
      match inner sub compatible with
      | VRes.ok => verifyList inner slice compatible rest
      | r => r

/-- DynVec FromSlice, parameterized by the FromSlice of the inner type. -/
def DynVecFromSlice (inner : Bytes → Bool → VRes) (slice : Bytes) (compatible : Bool) : VRes :=
  let sliceLen := slice.length
  if sliceLen % 2 ^ 32 < HeaderSizeUint then VRes.err Err.headerIsBroken
  else
    let totalSize := unpackNumber slice
    if sliceLen % 2 ^ 32 ≠ totalSize then VRes.err Err.totalSizeNotMatch
    else if sliceLen % 2 ^ 32 = HeaderSizeUint then VRes.ok
    else if sliceLen % 2 ^ 32 < HeaderSizeUint * 2 then VRes.err Err.totalSizeNotMatch
    else
      let offsetFirst := unpackNumber (slice.drop HeaderSizeUint)
      if offsetFirst % 4 ≠ 0 ∨ offsetFirst < HeaderSizeUint * 2 then
        VRes.err Err.offsetsNotMatchFirstOffset
      else
        let itemCount := offsetFirst / 4 - 1
        let headerSize := (HeaderSizeUint * (itemCount + 1)) % 2 ^ 32
        if sliceLen % 2 ^ 32 < headerSize then VRes.err Err.headerIsBroken
        else
          let offsets :=
            ((List.range itemCount).map fun i =>
              unpackNumber ((slice.drop HeaderSizeUint).drop (4 * i))) ++ [totalSize]
          if (oddPairs offsets).any fun p => p.2 < p.1 then VRes.err Err.offsetsNotMatchOrder
          else verifyList inner slice compatible (oddPairs offsets)

/-- Table field-verification: field i is decoded against
slice[offsets[i]:offsets[i+1]], returning the first nested error unchanged. -/
def verifyFields (slice : Bytes) (compatible : Bool) (offsets : List Nat) :
    List (Bytes → Bool → VRes) → Nat → VRes
  | [], _ => VRes.ok
  | f :: rest, i =>
    match goSlice slice (offsets.getD i 0) (offsets.getD (i + 1) 0) with
    | none => VRes.panics
    | some sub =>
      match f sub compatible with
      | VRes.ok => verifyFields slice compatible offsets rest (i + 1)
      | r => r

/-- Table FromSlice (template for a non-empty field list), parameterized by
the FromSlice functions of the declared fields in order.  Only the declared number
of offset entries is read from the buffer before the synthetic trailing
totalSize entry is appended. -/
def TableFromSlice (fields : List (Bytes → Bool → VRes)) (slice : Bytes) (compatible : Bool) :
    VRes :=
  let fieldCountDecl := fields.length
  let sliceLen := slice.length
  if sliceLen % 2 ^ 32 < HeaderSizeUint then VRes.err Err.headerIsBroken
  else
    let totalSize := unpackNumber slice
    if sliceLen % 2 ^ 32 ≠ totalSize then VRes.err Err.totalSizeNotMatch
    else if sliceLen % 2 ^ 32 = HeaderSizeUint ∧ fieldCountDecl = 0 then VRes.ok
    else if sliceLen % 2 ^ 32 < HeaderSizeUint * 2 then VRes.err Err.totalSizeNotMatch
    else
      let offsetFirst := unpackNumber (slice.drop HeaderSizeUint)
      if offsetFirst % 4 ≠ 0 ∨ offsetFirst < HeaderSizeUint * 2 then
        VRes.err Err.offsetsNotMatchFirstOffset
      else
        let fieldCount := offsetFirst / 4 - 1
        if fieldCount < fieldCountDecl then VRes.err Err.fieldCountNotMatch
        else if compatible = false ∧ fieldCountDecl < fieldCount then
          VRes.err Err.fieldCountNotMatch
        else
          let headerSize := (HeaderSizeUint * (fieldCount + 1)) % 2 ^ 32
          if sliceLen % 2 ^ 32 < headerSize then VRes.err Err.headerIsBroken
          else
            let offsets :=
              ((List.range fieldCountDecl).map fun i =>
                unpackNumber ((slice.drop HeaderSizeUint).drop (4 * i))) ++ [totalSize]
            if (oddPairs offsets).any fun p => p.2 < p.1 then VRes.err Err.offsetsNotMatchOrder
            else verifyFields slice compatible offsets fields 0

/-- Modelled from the spec: the switch body over the declared union
discriminants is emitted by GenUnion::gen_union, whose source file is not part
of the sampled sources; per the spec it fails UnknownItem when the read
discriminant is not a declared id and otherwise runs the matching inner
FromSlice on the slice after the 4-byte header, propagating errors unchanged. -/
def unionSwitch (cases : List (Nat × (Bytes → Bool → VRes))) (itemID : Nat)
    (innerSlice : Bytes) (compatible : Bool) : VRes :=
  match List.lookup itemID cases with
  | none => VRes.err Err.unknownItem
  | some f =>
    match f innerSlice compatible with
    | VRes.ok => VRes.ok
    | r => r

/-- Union FromSlice, parameterized by the declared (discriminant, inner
FromSlice) pairs. -/
def UnionFromSlice (cases : List (Nat × (Bytes → Bool → VRes))) (slice : Bytes)
    (compatible : Bool) : VRes :=
  let sliceLen := slice.length
  if sliceLen % 2 ^ 32 < HeaderSizeUint then VRes.err Err.headerIsBroken
  else unionSwitch cases (unpackNumber slice) (slice.drop HeaderSizeUint) compatible

/-- Union ItemID accessor: the discriminant read from the first 4 bytes. -/
def UnionItemID (slice : Bytes) : Nat := unpackNumber slice

/-- Option FromSlice: the empty buffer is none; otherwise the FromSlice of the inner
type must accept the whole buffer. -/
def OptionFromSlice (inner : Bytes → Bool → VRes) (slice : Bytes) (compatible : Bool) : VRes :=
  if slice.length = 0 then VRes.ok
  else
    match inner slice compatible with
    | VRes.ok => VRes.ok
    | r => r

/-- FixVec ItemCount accessor: the count read from the header. -/
def FixVecItemCount (slice : Bytes) : Nat := unpackNumber slice

/-- FixVec Len accessor: same as ItemCount. -/
def FixVecLen (slice : Bytes) : Nat := FixVecItemCount slice

/-- FixVec TotalSize accessor: HeaderSizeUint * (ItemCount + 1). -/
def FixVecTotalSize (slice : Bytes) : Nat := HeaderSizeUint * (FixVecItemCount slice + 1)

/-- FixVec Get accessor: nil for an index at or past Len, otherwise the
fixed-stride sub-slice starting after the header. -/
def FixVecGet (item_size : Nat) (slice : Bytes) (index : Nat) : GetRes :=
  if index < FixVecLen slice then
    let start := HeaderSizeUint + item_size * index
    match goSlice slice start (start + item_size) with
    | some sub => GetRes.view sub
    | none => GetRes.panics
  else GetRes.nilRes

/-- DynVec TotalSize accessor: the declared total size read from the header. -/
def DynVecTotalSize (slice : Bytes) : Nat := unpackNumber slice

/-- DynVec ItemCount accessor: zero when the declared total size is one header
unit, else first offset / 4 - 1 computed in Go uint (64-bit) arithmetic. -/
def DynVecItemCount (slice : Bytes) : Nat :=
  if DynVecTotalSize slice = HeaderSizeUint then 0
  else (unpackNumber (slice.drop HeaderSizeUint) / 4 + (2 ^ 64 - 1)) % 2 ^ 64

/-- DynVec Len accessor: same as ItemCount. -/
def DynVecLen (slice : Bytes) : Nat := DynVecItemCount slice

/-- The itemOffsets/FieldOffsets helper: the bytes after the header grouped
into 4-byte entries, ignoring a trailing partial group. -/
def itemOffsets (slice : Bytes) : List Bytes :=
  let dataLen := (slice.drop HeaderSizeUint).length
  let dataSize := dataLen - dataLen % 4
  (List.range (dataSize / 4)).map fun j => ((slice.drop HeaderSizeUint).drop (4 * j)).take 4

/-- DynVec Get accessor: nil for an index at or past Len; the view of the last item
runs to the end of the buffer, other items end at the next offset entry. -/
def DynVecGet (slice : Bytes) (index : Nat) : GetRes :=
  if index < DynVecLen slice then
    let offsets := itemOffsets slice
    let start := unpackNumber (offsets.getD index [])
    if index = DynVecLen slice - 1 then
      match goSliceFrom slice start with
      | some sub => GetRes.view sub
      | none => GetRes.panics
    else
      let stop := unpackNumber (offsets.getD (index + 1) [])
      match goSlice slice start stop with
      | some sub => GetRes.view sub
      | none => GetRes.panics
  else GetRes.nilRes

/-- Table TotalSize accessor: the declared total size read from the header. -/
def TableTotalSize (slice : Bytes) : Nat := unpackNumber slice

/-- Table FieldCount accessor: zero when the declared total size is one header
unit, else first offset / 4 - 1 computed in Go uint (64-bit) arithmetic. -/
def TableFieldCount (slice : Bytes) : Nat :=
  if TableTotalSize slice = HeaderSizeUint then 0
  else (unpackNumber (slice.drop HeaderSizeUint) / 4 + (2 ^ 64 - 1)) % 2 ^ 64

/-- Table FieldOffsets accessor: same 4-byte grouping as the DynVec template. -/
def TableFieldOffsets (slice : Bytes) : List Bytes := itemOffsets slice

/-- Table hasExtraFields: the observed field count differs from the declared
field count interpolated into the template. -/
def TableHasExtraFields (field_count : Nat) (slice : Bytes) : Bool :=
  decide (field_count ≠ TableFieldCount slice)

/-- The emitted getter for the last declared field of a table: it reads its start
from FieldOffsets entry 0 and, when extra fields are present, its end from
FieldOffsets entry 1; otherwise the view runs to the end of the buffer. -/
def TableLastGetter (field_count : Nat) (slice : Bytes) : GetRes :=
  let offsets := TableFieldOffsets slice
  let start := unpackNumber (offsets.getD 0 [])
  if TableHasExtraFields field_count slice then
    let stop := unpackNumber (offsets.getD 1 [])
    match goSlice slice start stop with
    | some sub => GetRes.view sub
    | none => GetRes.panics
  else
    match goSliceFrom slice start with
    | some sub => GetRes.view sub
    | none => GetRes.panics

/-- FixVec New constructor: the item count header followed by the items. -/
def NewFixVec (vec : List Bytes) : Bytes :=
  packNumber (vec.length % 2 ^ 32) ++ vec.flatten

/-- Offset accumulation of the DynVec/Table New constructors: each child is
assigned the running total before its own length is added, in Go uint32
arithmetic. -/
def accumOffsets (start : Nat) : List Nat → List Nat
  | [] => []
  | l :: rest => start :: accumOffsets ((start + l % 2 ^ 32) % 2 ^ 32) rest

/-- DynVec New constructor: an empty vector writes only the packed item count;
otherwise the packed running total size, the packed offsets, and the items. -/
def NewDynVec (vec : List Bytes) : Bytes :=
  if vec.length = 0 then packNumber (vec.length % 2 ^ 32)
  else
    let base := (HeaderSizeUint * ((vec.length + 1) % 2 ^ 32)) % 2 ^ 32
    let offsets := accumOffsets base (vec.map List.length)
    let total := (vec.map List.length).foldl (fun acc l => (acc + l % 2 ^ 32) % 2 ^ 32) base
    packNumber total ++ (offsets.map packNumber).flatten ++ vec.flatten

/-- Table New constructor (template for a non-empty field list): the packed
running total size, the packed per-field offsets, and the field encodings. -/
def NewTable (fields : List Bytes) : Bytes :=
  let base := (HeaderSizeUint * (fields.length + 1)) % 2 ^ 32
  let offsets := accumOffsets base (fields.map List.length)
  let total := (fields.map List.length).foldl (fun acc l => (acc + l % 2 ^ 32) % 2 ^ 32) base
  packNumber total ++ (offsets.map packNumber).flatten ++ fields.flatten

/-- Union New constructor: the packed discriminant followed by the inner
encoding. -/
def NewUnion (itemID : Nat) (inner : Bytes) : Bytes := packNumber itemID ++ inner

/-- Array/Struct New constructor: the concatenation of the member encodings. -/
def NewConcat (members : List Bytes) : Bytes := members.flatten

/-- Offset formula stated by the spec for DynVec/Table encoding: entry i is
the header-table size plus the lengths of the children before child i. -/
def specOffset (lens : List Nat) (i : Nat) : Nat :=
  HeaderSizeUint * (lens.length + 1) + (lens.take i).sum

/-- Total size stated by the spec for DynVec/Table encoding with at least one
child: the header-table size plus all child lengths. -/
def specTotal (lens : List Nat) : Nat :=
  HeaderSizeUint * (lens.length + 1) + lens.sum

/-- A 3-item DynVec buffer of inner item size 1 whose offset table is
[16, 24, 20] with declared total 28: the adjacent pair (24, 20) decreases. -/
def c2buf : Bytes :=
  packNumber 28 ++ packNumber 16 ++ packNumber 24 ++ packNumber 20
    ++ [4, 0, 0, 0] ++ [4, 0, 0, 0] ++ [9, 9, 9, 9]

/-- A 2-item DynVec buffer of inner item size 1 whose first item [0, 0, 0, 0]
is a valid inner encoding and whose second item [5, 0, 0, 0] is not. -/
def c3buf : Bytes :=
  packNumber 20 ++ packNumber 12 ++ packNumber 16 ++ [0, 0, 0, 0] ++ [5, 0, 0, 0]

/-- First field of the 2-field table used against the table getters: a valid
one-item FixVec of item size 1. -/
def c4f0 : Bytes := [1, 0, 0, 0, 170]

/-- Second field of the 2-field table used against the table getters: a valid
empty FixVec. -/
def c4f1 : Bytes := [0, 0, 0, 0]

/-- A valid 2-field table buffer: total 21, offsets [12, 17], then the two
field encodings. -/
def c4buf : Bytes := packNumber 21 ++ packNumber 12 ++ packNumber 17 ++ c4f0 ++ c4f1

/-- A 1-field table buffer carrying one extra trailing field: total 17,
offsets [12, 16], the declared field [0, 0, 0, 0], and the extra byte 7. -/
def c5buf : Bytes := packNumber 17 ++ packNumber 12 ++ packNumber 16 ++ [0, 0, 0, 0] ++ [7]

/-- A table buffer with one observed field, to be decoded against a schema
declaring two fields: total 12, offset [8], one field [0, 0, 0, 0]. -/
def c5low : Bytes := packNumber 12 ++ packNumber 8 ++ [0, 0, 0, 0]

/-- Claim C1: encoding an empty DynVec writes the packed item count 0 rather
than the packed total size 4, so decoding the output of the encoder itself fails with
TotalSizeNotMatch instead of round-tripping. -/
theorem c1_empty_dynvec_roundtrip :
    NewDynVec ([] : List Bytes) = packNumber 0
    ∧ DynVecFromSlice (FixVecFromSlice 1) (NewDynVec ([] : List Bytes)) true
        = VRes.err Err.totalSizeNotMatch := by decide

/-- Claim C2: on c2buf the offset entries at indices 1 and 2 decrease
(24 then 20), yet DynVec decode succeeds, because the emitted monotonicity
loop only compares pairs at odd loop indices. -/
theorem c2_adjacent_decrease_accepted :
    DynVecFromSlice (FixVecFromSlice 1) c2buf true = VRes.ok
    ∧ unpackNumber (c2buf.drop 8) = 24
    ∧ unpackNumber (c2buf.drop 12) = 20 := by decide

/-- Claim C3: on c3buf the sub-slice of the second item [offsets[1]:offsets[2]] is
an invalid inner encoding, yet DynVec decode succeeds, because the emitted
validation loop only decodes sub-slices at odd loop indices. -/
theorem c3_unvalidated_item_accepted :
    DynVecFromSlice (FixVecFromSlice 1) c3buf true = VRes.ok
    ∧ FixVecFromSlice 1 ((c3buf.drop 16).take 4) true = VRes.err Err.totalSizeNotMatch := by
  decide

/-- Claim C4: c4buf is a valid 2-field table, its second (last declared)
field occupies [offset_table[1] : offset_table[2]) = bytes 17..20, yet the
emitted last-field getter returns the view starting at offset_table[0],
spanning both fields. -/
theorem c4_table_last_getter_misrange :
    TableFromSlice [FixVecFromSlice 1, FixVecFromSlice 1] c4buf false = VRes.ok
    ∧ (c4buf.drop 17).take (21 - 17) = c4f1
    ∧ TableLastGetter 2 c4buf = GetRes.view (c4f0 ++ c4f1)
    ∧ GetRes.view (c4f0 ++ c4f1) ≠ GetRes.view c4f1 := by decide

/-- Claim C5: a 1-field table buffer with one extra trailing field fails to
decode even with compatible = true, because the decoder never reads the offset entry of the extra
field and validates the declared field against
[offsets[0] : totalSize]; with compatible = false it fails FieldCountNotMatch,
as does an observed count below the declared count under either flag. -/
theorem c5_compat_table_decode :
    TableFromSlice [FixVecFromSlice 1] c5buf true = VRes.err Err.totalSizeNotMatch
    ∧ TableFromSlice [FixVecFromSlice 1] c5buf false = VRes.err Err.fieldCountNotMatch
    ∧ TableFromSlice [FixVecFromSlice 1, FixVecFromSlice 1] c5low true
        = VRes.err Err.fieldCountNotMatch
    ∧ TableFromSlice [FixVecFromSlice 1, FixVecFromSlice 1] c5low false
        = VRes.err Err.fieldCountNotMatch := by decide

/-- Claim C9: for validated FixVec and DynVec views, Get returns nil for any
index at or past Len, and a sub-slice view is produced only for indices
strictly below Len. -/
theorem c9_get_out_of_bounds_nil (item_size : Nat) (inner : Bytes → Bool → VRes)
    (s1 s2 : Bytes) (c : Bool) (i j : Nat)
    (h1 : FixVecFromSlice item_size s1 c = VRes.ok)
    (h2 : DynVecFromSlice inner s2 c = VRes.ok) :
    (FixVecLen s1 ≤ i → FixVecGet item_size s1 i = GetRes.nilRes)
    ∧ (∀ b, FixVecGet item_size s1 i = GetRes.view b → i < FixVecLen s1)
    ∧ (DynVecLen s2 ≤ j → DynVecGet s2 j = GetRes.nilRes)
    ∧ (∀ b, DynVecGet s2 j = GetRes.view b → j < DynVecLen s2) := by
  refine ⟨?_, ?_, ?_, ?_⟩
  · intro h
    simp [FixVecGet, Nat.not_lt.mpr h]
  · intro b hb
    by_contra h
    simp [FixVecGet, h] at hb
  · intro h
    simp [DynVecGet, Nat.not_lt.mpr h]
  · intro b hb
    by_contra h
    simp [DynVecGet, h] at hb

/-- Witness for C9 at a validated empty FixVec view and a validated empty
DynVec view, both queried at index 0. -/
theorem c9_get_out_of_bounds_nil_witness :
    FixVecGet 1 [0, 0, 0, 0] 0 = GetRes.nilRes ∧ DynVecGet [4, 0, 0, 0] 0 = GetRes.nilRes := by
  have h := c9_get_out_of_bounds_nil 1 (FixVecFromSlice 1) [0, 0, 0, 0] [4, 0, 0, 0] true 0 0
    (by decide) (by decide)
  exact ⟨h.1 (by decide), h.2.2.1 (by decide)⟩

/-- Claim C7: Union decode fails HeaderIsBroken for slices shorter than 4
bytes; with at least 4 bytes it fails UnknownItem when the little-endian
discriminant is not declared, otherwise it returns exactly the matching inner
FromSlice result on the slice after the header; on success the ItemID
accessor returns the discriminant read from the first 4 bytes, which is a
declared id. -/
theorem c7_union_decode (cases : List (Nat × (Bytes → Bool → VRes))) (slice : Bytes)
    (c : Bool) :
    (slice.length < 4 → UnionFromSlice cases slice c = VRes.err Err.headerIsBroken)
    ∧ (4 ≤ slice.length → slice.length < 2 ^ 32 →
        List.lookup (unpackNumber slice) cases = none →
        UnionFromSlice cases slice c = VRes.err Err.unknownItem)
    ∧ (∀ f, 4 ≤ slice.length → slice.length < 2 ^ 32 →
        List.lookup (unpackNumber slice) cases = some f →
        UnionFromSlice cases slice c = f (slice.drop 4) c)
    ∧ (UnionFromSlice cases slice c = VRes.ok →
        UnionItemID slice = unpackNumber slice
        ∧ (List.lookup (UnionItemID slice) cases).isSome = true) := by
  refine ⟨?_, ?_, ?_, ?_⟩
  · intro h
    have hm : slice.length % 2 ^ 32 = slice.length :=
      Nat.mod_eq_of_lt (lt_trans h (by norm_num))
    simp only [UnionFromSlice, HeaderSizeUint, hm]
    rw [if_pos h]
  · intro h4 hlt hnone
    simp only [UnionFromSlice, unionSwitch, HeaderSizeUint, Nat.mod_eq_of_lt hlt]
    rw [if_neg (Nat.not_lt.mpr h4), hnone]
  · intro f h4 hlt hsome
    simp only [UnionFromSlice, unionSwitch, HeaderSizeUint, Nat.mod_eq_of_lt hlt]
    rw [if_neg (Nat.not_lt.mpr h4), hsome]
    cases hres : f (slice.drop 4) c <;> simp [hres]
  · intro hok
    refine ⟨rfl, ?_⟩
    simp only [UnionFromSlice] at hok
    split_ifs at hok
    unfold unionSwitch at hok
    cases hl : List.lookup (unpackNumber slice) cases with
    | none => rw [hl] at hok; simp at hok
    | some f => simp [UnionItemID, hl]

/-- Declared union cases used by the C7 witness: discriminant 3 wraps a
2-byte fixed-size inner type. -/
def c7cases : List (Nat × (Bytes → Bool → VRes)) := [(3, ArrayFromSlice 2)]

/-- Witness for C7: a buffer with undeclared discriminant 99 fails
UnknownItem, the encoded union with discriminant 3 and a 2-byte inner value
decodes, its ItemID reads back 3, and a 1-byte slice fails HeaderIsBroken. -/
theorem c7_union_decode_witness :
    UnionFromSlice c7cases (NewUnion 99 [1, 2]) true = VRes.err Err.unknownItem
    ∧ UnionFromSlice c7cases (NewUnion 3 [1, 2]) true = VRes.ok
    ∧ UnionItemID (NewUnion 3 [1, 2]) = 3
    ∧ UnionFromSlice c7cases [0] true = VRes.err Err.headerIsBroken := by
  refine ⟨?_, ?_, by decide, ?_⟩
  · exact (c7_union_decode c7cases (NewUnion 99 [1, 2]) true).2.1 (by decide) (by decide) rfl
  · exact ((c7_union_decode c7cases (NewUnion 3 [1, 2]) true).2.2.1 (ArrayFromSlice 2)
      (by decide) (by decide) rfl).trans (by decide)
  · exact (c7_union_decode c7cases [0] true).1 (by decide)

/-- Characterization of FixVec decode success: the header must be present and
the slice length must match the expected total size, whose item part is
computed in Go uint32 arithmetic. -/
lemma fixVec_ok_iff (item_size : Nat) (slice : Bytes) (c : Bool) :
    FixVecFromSlice item_size slice c = VRes.ok ↔
      4 ≤ slice.length ∧
        ((unpackNumber slice = 0 ∧ slice.length = 4) ∨
          (unpackNumber slice ≠ 0 ∧
            slice.length = 4 + (item_size * unpackNumber slice) % 2 ^ 32)) := by
  simp only [FixVecFromSlice, HeaderSizeUint]
  split_ifs with h1 h2 h3 h4 <;> simp <;> omega

/-- Counterexample to Claim C8 as stated: with item size 4 and a header
declaring 2 ^ 30 items, the uint32 size product overflows to 0, so the
4-byte slice is accepted although its length is not
4 + item_size × item_count. -/
theorem c8_fixvec_size_counterexample :
    FixVecFromSlice 4 [0, 0, 0, 64] true = VRes.ok
    ∧ ([0, 0, 0, 64] : Bytes).length ≠ 4 + 4 * unpackNumber [0, 0, 0, 64] := by decide

/-- Claim C8 (amended): FixVec decode fails HeaderIsBroken below 4 bytes;
with a zero item count it succeeds exactly on length 4 and otherwise fails
TotalSizeNotMatch; with a non-zero item count it succeeds exactly on length
4 + ((item_size × item_count) mod 2 ^ 32) and otherwise fails
TotalSizeNotMatch; and encoding zero items yields the 4-byte buffer
packNumber 0, which decodes back with length 0. -/
theorem c8_fixvec_decode (item_size : Nat) (slice : Bytes) (c : Bool) :
    (slice.length < 4 → FixVecFromSlice item_size slice c = VRes.err Err.headerIsBroken)
    ∧ (4 ≤ slice.length → unpackNumber slice = 0 →
        (FixVecFromSlice item_size slice c = VRes.ok ↔ slice.length = 4)
        ∧ (slice.length ≠ 4 →
            FixVecFromSlice item_size slice c = VRes.err Err.totalSizeNotMatch))
    ∧ (4 ≤ slice.length → unpackNumber slice ≠ 0 →
        (FixVecFromSlice item_size slice c = VRes.ok
          ↔ slice.length = 4 + (item_size * unpackNumber slice) % 2 ^ 32)
        ∧ (slice.length ≠ 4 + (item_size * unpackNumber slice) % 2 ^ 32 →
            FixVecFromSlice item_size slice c = VRes.err Err.totalSizeNotMatch))
    ∧ NewFixVec [] = packNumber 0
    ∧ FixVecFromSlice item_size (NewFixVec []) c = VRes.ok
    ∧ FixVecLen (NewFixVec []) = 0 := by
  refine ⟨?_, ?_, ?_, by decide, ?_, by decide⟩
  · intro h
    simp only [FixVecFromSlice, HeaderSizeUint]
    rw [if_pos h]
  · intro h4 h0
    refine ⟨?_, ?_⟩
    · rw [fixVec_ok_iff]
      omega
    · intro hne
      simp only [FixVecFromSlice, HeaderSizeUint]
      rw [if_neg (Nat.not_lt.mpr h4), if_pos h0, if_pos hne]
  · intro h4 h0
    refine ⟨?_, ?_⟩
    · rw [fixVec_ok_iff]
      omega
    · intro hne
      simp only [FixVecFromSlice, HeaderSizeUint]
      rw [if_neg (Nat.not_lt.mpr h4), if_neg h0, if_pos hne]
  · exact (fixVec_ok_iff item_size (NewFixVec []) c).mpr ⟨by decide, Or.inl (by decide)⟩

/-- Witness for C8 at concrete inputs: a 2-byte slice fails HeaderIsBroken,
and the encoded empty FixVec decodes back with length 0. -/
theorem c8_fixvec_decode_witness :
    FixVecFromSlice 4 [1, 2] true = VRes.err Err.headerIsBroken
    ∧ FixVecFromSlice 4 (NewFixVec []) true = VRes.ok
    ∧ FixVecLen (NewFixVec []) = 0 :=
  ⟨(c8_fixvec_decode 4 [1, 2] true).1 (by decide),
    (c8_fixvec_decode 4 (NewFixVec []) true).2.2.2.2.1,
    (c8_fixvec_decode 4 (NewFixVec []) true).2.2.2.2.2⟩

/-- Counterexample to Claim C10 as stated: a validated empty FixVec view of
an item size 2 type has TotalSize equal to the buffer length although the
item size is not 4. -/
theorem c10_total_size_counterexample :
    FixVecFromSlice 2 [0, 0, 0, 0] true = VRes.ok
    ∧ FixVecTotalSize [0, 0, 0, 0] = ([0, 0, 0, 0] : Bytes).length
    ∧ (2 : Nat) ≠ 4 := by decide

/-- Claim C10 (amended): for a validated FixVec view, TotalSize returns
4 × (ItemCount + 1), and (absent uint32 overflow of the size product) this
equals the byte length of the buffer exactly when the item size is 4 or the
vector is empty. -/
theorem c10_fixvec_total_size (item_size : Nat) (slice : Bytes) (c : Bool)
    (hok : FixVecFromSlice item_size slice c = VRes.ok)
    (hov : item_size * FixVecItemCount slice < 2 ^ 32) :
    FixVecTotalSize slice = 4 * (FixVecItemCount slice + 1)
    ∧ (FixVecTotalSize slice = slice.length ↔ item_size = 4 ∨ FixVecItemCount slice = 0) := by
  have h := (fixVec_ok_iff item_size slice c).mp hok
  have hcount : FixVecItemCount slice = unpackNumber slice := rfl
  have ht : FixVecTotalSize slice = 4 * (unpackNumber slice + 1) := rfl
  refine ⟨rfl, ?_⟩
  rcases h.2 with ⟨h0, hlen⟩ | ⟨h0, hlen⟩
  · simp [FixVecTotalSize, FixVecItemCount, HeaderSizeUint, h0, hlen]
  · rw [Nat.mod_eq_of_lt (by rwa [hcount] at hov)] at hlen
    constructor
    · intro he
      rw [ht, hlen] at he
      left
      have h4u : 4 * unpackNumber slice = item_size * unpackNumber slice := by omega
      exact (Nat.eq_of_mul_eq_mul_right (Nat.pos_of_ne_zero h0) h4u).symm
    · rintro (h4 | hz)
      · rw [ht, hlen, h4]
        ring
      · rw [hcount] at hz
        exact absurd hz h0

/-- Witness for C10 at a validated one-item FixVec view of an item size 4
type. -/
theorem c10_fixvec_total_size_witness :
    FixVecFromSlice 4 [1, 0, 0, 0, 9, 9, 9, 9] true = VRes.ok
    ∧ (FixVecTotalSize [1, 0, 0, 0, 9, 9, 9, 9] = ([1, 0, 0, 0, 9, 9, 9, 9] : Bytes).length
        ↔ (4 : Nat) = 4 ∨ FixVecItemCount [1, 0, 0, 0, 9, 9, 9, 9] = 0) :=
  ⟨by decide,
    (c10_fixvec_total_size 4 [1, 0, 0, 0, 9, 9, 9, 9] true (by decide) (by decide)).2⟩

/-- Prefix sums step: taking one more element adds that element to the sum. -/
lemma take_succ_sum (lens : List Nat) : ∀ i : Nat, i < lens.length →
    (lens.take (i + 1)).sum = (lens.take i).sum + lens.getD i 0 := by
  induction lens with
  | nil => intro i hi; simp at hi
  | cons l rest ih =>
    intro i hi
    cases i with
    | zero => simp
    | succ j =>
      have hj : j < rest.length := by simpa using hi
      simp only [List.take_succ_cons, List.sum_cons, List.getD_cons_succ, ih j hj]
      omega

/-- When the final total fits in a uint32, the modular offset accumulation of
the New constructors produces the plain prefix sums. -/
lemma accumOffsets_eq (lens : List Nat) : ∀ start : Nat, start + lens.sum < 2 ^ 32 →
    accumOffsets start lens
      = (List.range lens.length).map fun i => start + (lens.take i).sum := by
  induction lens with
  | nil => intro start h; rfl
  | cons l rest ih =>
    intro start h
    rw [List.sum_cons] at h
    have hl : l % 2 ^ 32 = l := Nat.mod_eq_of_lt (by omega)
    have hsl : (start + l) % 2 ^ 32 = start + l := Nat.mod_eq_of_lt (by omega)
    rw [accumOffsets, hl, hsl, ih (start + l) (by omega)]
    rw [List.length_cons, List.range_succ_eq_map, List.map_cons, List.map_map]
    congr 1
    refine List.map_congr_left fun a _ => ?_
    simp only [Function.comp, List.take_succ_cons, List.sum_cons]
    omega

/-- When the final total fits in a uint32, the modular running total of the
New constructors is the plain sum. -/
lemma foldlMod_eq (lens : List Nat) : ∀ start : Nat, start + lens.sum < 2 ^ 32 →
    lens.foldl (fun acc l => (acc + l % 2 ^ 32) % 2 ^ 32) start = start + lens.sum := by
  induction lens with
  | nil => intro start h; simp
  | cons l rest ih =>
    intro start h
    rw [List.sum_cons] at h ⊢
    rw [List.foldl_cons]
    have hl : l % 2 ^ 32 = l := Nat.mod_eq_of_lt (by omega)
    have hsl : (start + l) % 2 ^ 32 = start + l := Nat.mod_eq_of_lt (by omega)
    rw [hl, hsl, ih (start + l) (by omega)]
    omega

/-- First item of the concrete two-item DynVec scenario: 6 encoded bytes. -/
def c6item0 : Bytes := [101, 102, 103, 104, 105, 106]

/-- Second item of the concrete two-item DynVec scenario: 10 encoded bytes. -/
def c6item1 : Bytes := [201, 202, 203, 204, 205, 206, 207, 208, 209, 210]

/-- Claim C6: for at least one child and a total fitting in a uint32, the
DynVec and Table New constructors emit the packed total, the packed offsets
given by the spec recurrence (first offset 4 × (n + 1), each next offset the
previous plus the length of the previous child, total the last offset plus
the length of the last child), then the children; and in the concrete two-item
scenario with child lengths 6 and 10 the buffer is
total 28 / offsets 12 and 18 / the items at bytes 12..17 and 18..27, with
Get 0 and Get 1 returning exactly the two children. -/
theorem c6_dynvec_table_encode_layout (vec : List Bytes) (h1 : 1 ≤ vec.length)
    (hb : specTotal (vec.map List.length) < 2 ^ 32) :
    NewDynVec vec =
        packNumber (specTotal (vec.map List.length))
          ++ ((List.range vec.length).map fun i =>
                packNumber (specOffset (vec.map List.length) i)).flatten
          ++ vec.flatten
    ∧ NewTable vec =
        packNumber (specTotal (vec.map List.length))
          ++ ((List.range vec.length).map fun i =>
                packNumber (specOffset (vec.map List.length) i)).flatten
          ++ vec.flatten
    ∧ specOffset (vec.map List.length) 0 = 4 * (vec.length + 1)
    ∧ (∀ i, 0 < i → i < vec.length →
        specOffset (vec.map List.length) i
          = specOffset (vec.map List.length) (i - 1) + (vec.map List.length).getD (i - 1) 0)
    ∧ specTotal (vec.map List.length)
        = specOffset (vec.map List.length) (vec.length - 1)
          + (vec.map List.length).getD (vec.length - 1) 0
    ∧ NewDynVec [c6item0, c6item1]
        = packNumber 28 ++ packNumber 12 ++ packNumber 18 ++ c6item0 ++ c6item1
    ∧ (NewDynVec [c6item0, c6item1]).length = 28
    ∧ ((NewDynVec [c6item0, c6item1]).drop 12).take 6 = c6item0
    ∧ (NewDynVec [c6item0, c6item1]).drop 18 = c6item1
    ∧ DynVecGet (NewDynVec [c6item0, c6item1]) 0 = GetRes.view c6item0
    ∧ DynVecGet (NewDynVec [c6item0, c6item1]) 1 = GetRes.view c6item1 := by
  have hlen : (vec.map List.length).length = vec.length := List.length_map vec List.length
  have hb2 : 4 * (vec.length + 1) + (vec.map List.length).sum < 2 ^ 32 := by
    have h := hb
    simp only [specTotal, HeaderSizeUint, hlen] at h
    exact h
  have hn1 : (vec.length + 1) % 2 ^ 32 = vec.length + 1 := Nat.mod_eq_of_lt (by omega)
  have hacc : accumOffsets (4 * (vec.length + 1)) (vec.map List.length)
      = (List.range vec.length).map fun i =>
          4 * (vec.length + 1) + ((vec.map List.length).take i).sum := by
    rw [accumOffsets_eq _ _ (by omega), hlen]
  have hfold : (vec.map List.length).foldl (fun acc l => (acc + l % 2 ^ 32) % 2 ^ 32)
      (4 * (vec.length + 1)) = specTotal (vec.map List.length) := by
    rw [foldlMod_eq _ _ (by omega)]
    simp [specTotal, HeaderSizeUint, hlen]
  have hoffs : ∀ i : Nat, specOffset (vec.map List.length) i
      = 4 * (vec.length + 1) + ((vec.map List.length).take i).sum := by
    intro i
    simp [specOffset, HeaderSizeUint, hlen]
  refine ⟨?_, ?_, ?_, ?_, ?_, by decide, by decide, by decide, by decide, by decide, by decide⟩
  · simp only [NewDynVec, HeaderSizeUint]
    rw [if_neg (by omega), hn1, Nat.mod_eq_of_lt (show 4 * (vec.length + 1) < 2 ^ 32 by omega),
      hacc, hfold, List.map_map]
    have hmap : (List.range vec.length).map
        (packNumber ∘ fun i => 4 * (vec.length + 1) + ((vec.map List.length).take i).sum)
        = (List.range vec.length).map fun i => packNumber (specOffset (vec.map List.length) i) :=
      List.map_congr_left fun a _ => by simp [Function.comp, hoffs a]
    rw [hmap]
  · simp only [NewTable, HeaderSizeUint]
    rw [Nat.mod_eq_of_lt (show 4 * (vec.length + 1) < 2 ^ 32 by omega),
      hacc, hfold, List.map_map]
    have hmap : (List.range vec.length).map
        (packNumber ∘ fun i => 4 * (vec.length + 1) + ((vec.map List.length).take i).sum)
        = (List.range vec.length).map fun i => packNumber (specOffset (vec.map List.length) i) :=
      List.map_congr_left fun a _ => by simp [Function.comp, hoffs a]
    rw [hmap]
  · simp [specOffset, HeaderSizeUint, hlen]
  · intro i h0 hi
    obtain ⟨j, rfl⟩ : ∃ j, i = j + 1 := ⟨i - 1, (Nat.succ_pred_eq_of_pos h0).symm⟩
    have hj : j < (vec.map List.length).length := by omega
    simp only [hoffs, Nat.add_sub_cancel, take_succ_sum (vec.map List.length) j hj]
    omega
  · have hlt : vec.length - 1 < (vec.map List.length).length := by omega
    have hsum : (vec.map List.length).sum
        = ((vec.map List.length).take (vec.length - 1)).sum
          + (vec.map List.length).getD (vec.length - 1) 0 := by
      have h2 := take_succ_sum (vec.map List.length) (vec.length - 1) hlt
      have hn : vec.length - 1 + 1 = vec.length := by omega
      have htake : (vec.map List.length).take vec.length = vec.map List.length := by
        rw [← hlen]
        exact List.take_length _
      rw [hn, htake] at h2
      exact h2
    simp only [specTotal, hoffs, HeaderSizeUint, hlen]
    omega

/-- Witness for C6 at the concrete two-item vector of lengths 6 and 10. -/
theorem c6_encode_layout_witness :
    NewDynVec [c6item0, c6item1] =
      packNumber (specTotal ([c6item0, c6item1].map List.length))
        ++ ((List.range ([c6item0, c6item1] : List Bytes).length).map fun i =>
              packNumber (specOffset ([c6item0, c6item1].map List.length) i)).flatten
        ++ ([c6item0, c6item1] : List Bytes).flatten :=
  (c6_dynvec_table_encode_layout [c6item0, c6item1] (by decide) (by decide)).1

end Molecule
